import Mathlib

/-!
Shallow embedding of src/opensanctions_batch_search.py.

External effects of the Python standard library are modeled as explicit
inputs: file contents appear as lists of lines or rows, the HTTP fetch is an
oracle value per query, and the regex anchor scan of a page together with the
HTML cleanup of each anchor title (tag stripping, character reference
decoding, trimming) is modeled as the document-order list of anchors the scan
yields, each anchor carrying its relative URL and its already cleaned title.
Python str.strip, str.lower and the substring test are modeled concretely
below over lists of characters.
-/

/-- Python str.strip with no argument: drop leading and trailing whitespace. -/
def pyStrip (s : String) : String :=
  ⟨((s.data.dropWhile Char.isWhitespace).reverse.dropWhile Char.isWhitespace).reverse⟩

/-- Python str.lower, character by character. -/
def pyLower (s : String) : String := ⟨s.data.map Char.toLower⟩

/-- Helper for the substring test: does the first list start the second one. -/
def startsWith : List Char → List Char → Bool
  | [], _ => true
  | _ :: _, [] => false
  | a :: as, b :: bs => a == b && startsWith as bs

/-- Python substring containment test, needle in hay. -/
def containsSub (needle : List Char) : List Char → Bool
  | [] => needle.isEmpty
  | c :: rest => startsWith needle (c :: rest) || containsSub needle rest

/-- Fixed search endpoint of line 13 of the source, split at the query slot. -/
def BASE_SEARCH_URL_PREFIX : String := "https://www.opensanctions.org/search/?q="

/-- Marker the site emits when a search yields no results, line 14. -/
def NO_MATCH_MARKER : String := "No matching entities were found."

/-- Canonical host prefixed to relative entity URLs, line 156. -/
def OS_HOST : String := "https://www.opensanctions.org"

/-- Upper case hexadecimal digit of a value below 16. -/
def hexDigit (n : Nat) : Char := if n < 10 then Char.ofNat (48 + n) else Char.ofNat (55 + n)

/-- UTF-8 bytes of one character. -/
def utf8Bytes (c : Char) : List Nat :=
  let n := c.toNat
  if n < 128 then [n]
  else if n < 2048 then [192 + n / 64, 128 + n % 64]
  else if n < 65536 then [224 + n / 4096, 128 + n / 64 % 64, 128 + n % 64]
  else [240 + n / 262144, 128 + n / 4096 % 64, 128 + n / 64 % 64, 128 + n % 64]

/-- Encoding of one character under urllib.parse.quote_plus: space becomes a
plus sign, ASCII alphanumerics and the four always safe punctuation marks are
kept, every other character is percent encoded byte by byte. -/
def quoteChar (c : Char) : List Char :=
  if c = ' ' then ['+']
  else if c.isAlphanum || c = '-' || c = '.' || c = '_' || c = '~' then [c]
  else (utf8Bytes c).flatMap (fun b => ['%', hexDigit (b / 16), hexDigit (b % 16)])

/-- urllib.parse.quote_plus as used on line 133. -/
def quote_plus (s : String) : String := ⟨s.data.flatMap quoteChar⟩

/-- URL built in fetch_search_html (lines 133 to 134) and rebuilt in the
error branch of main (lines 256 to 257). -/
def buildSearchUrl (name : String) : String :=
  BASE_SEARCH_URL_PREFIX ++ quote_plus name

/-- One anchor found by the regex scan of extract_entities (line 152), in
document order: the relative URL and the title after tag stripping, HTML
character decoding and trimming (line 157). -/
abbrev Anchor := String × String

/-- Dedup key of line 158: absolute URL paired with the lower cased title. -/
def anchorKey (a : Anchor) : String × String :=
  (OS_HOST ++ a.1, pyLower a.2)

/-- Entity tuple appended on line 162: title first, then absolute URL. -/
def anchorEntity (a : Anchor) : String × String :=
  (a.2, OS_HOST ++ a.1)

/-- Loop of extract_entities, lines 155 to 164. The count argument is the
length of the entities list built so far; the break check of line 163 runs
after the append, so the step that reaches the cap still emits its entity. -/
def extractGo (maxLinks : Int) (seen : List (String × String)) (count : Nat) :
    List Anchor → List (String × String)
  | [] => []
  | a :: rest =>
    if anchorKey a ∈ seen then extractGo maxLinks seen count rest
    else if (count : Int) + 1 ≥ maxLinks then [anchorEntity a]
    else anchorEntity a :: extractGo maxLinks (anchorKey a :: seen) (count + 1) rest

/-- extract_entities, lines 151 to 165, over the anchor list of the page. -/
def extract_entities (anchors : List Anchor) (maxLinks : Int) :
    List (String × String) :=
  extractGo maxLinks [] 0 anchors

/-- The same dedup loop without the cap: full deduplication of the anchors by
key in encounter order. Used to characterize extract_entities. -/
def dedupGo (seen : List (String × String)) : List Anchor → List (String × String)
  | [] => []
  | a :: rest =>
    if anchorKey a ∈ seen then dedupGo seen rest
    else anchorEntity a :: dedupGo (anchorKey a :: seen) rest

/-- Full dedup of an anchor list; its length counts the distinct anchors. -/
def dedupAnchors (anchors : List Anchor) : List (String × String) :=
  dedupGo [] anchors

/-- Dedup key of line 124: value.strip().lower(). -/
def nameKey (v : String) : String := pyLower (pyStrip v)

/-- Loop of unique_preserve_order, lines 120 to 129. -/
def upoGo (seen : List String) : List String → List String
  | [] => []
  | v :: vs =>
    if nameKey v ∈ seen then upoGo seen vs
    else v :: upoGo (nameKey v :: seen) vs

/-- unique_preserve_order, lines 120 to 129. -/
def unique_preserve_order (values : List String) : List String := upoGo [] values

/-- Modelled from the spec: the subsequence of first occurrences keyed by
trimmed, case folded value, each key represented by its first seen original
string. This is the specification side of the dedup claim. -/
def firstOccurrences : List String → List String
  | [] => []
  | v :: vs =>
    v :: firstOccurrences (vs.filter fun w => decide (nameKey w ≠ nameKey v))
termination_by l => l.length
decreasing_by simpa using Nat.lt_succ_of_le (List.length_filter_le _ vs)

/-- The dedup step of build_name_list, lines 190 to 191: applied exactly when
the no dedupe flag is off. -/
def dedupPhase (noDedupe : Bool) (names : List String) : List String :=
  if noDedupe then names else unique_preserve_order names

/-- load_names_from_txt, lines 87 to 94; the file is modeled as its list of
lines, each line is stripped and empty results are dropped. -/
def load_names_from_txt (lines : List String) : List String :=
  (lines.map pyStrip).filter (fun n => decide (n ≠ ""))

/-- One csv.DictReader row, modeled as an association list from column name
to cell value; a missing column yields none, like dict.get. -/
abbrev CsvRow := List (String × String)

/-- Python row.get(col): first binding of the column, if any. -/
def rowGet (row : CsvRow) (col : String) : Option String :=
  (row.find? (fun kv => kv.1 == col)).map (fun kv => kv.2)

/-- Resolved full name of one row, lines 105 to 111: either the designated
full name column, or the first and last columns joined by one space with
blank parts dropped. -/
def resolveName (nameCol firstCol lastCol : String) (row : CsvRow) : String :=
  if nameCol ≠ "" then pyStrip ((rowGet row nameCol).getD "")
  else
    let first := pyStrip ((rowGet row firstCol).getD "")
    let last := pyStrip ((rowGet row lastCol).getD "")
    pyStrip (String.intercalate " " ([first, last].filter (fun p => decide (p ≠ ""))))

/-- Loop of load_names_from_csv, lines 104 to 116, carrying the enumerate
counter which starts at 2 because the header is row 1. -/
def loadCsvGo (nameCol firstCol lastCol : String) (i : Nat) :
    List CsvRow → List String × List Nat
  | [] => ([], [])
  | row :: rest =>
    let later := loadCsvGo nameCol firstCol lastCol (i + 1) rest
    let fullName := resolveName nameCol firstCol lastCol row
    if fullName ≠ "" then (fullName :: later.1, later.2)
    else (later.1, i :: later.2)

/-- load_names_from_csv, lines 97 to 117: the kept names in order and the
1 based numbers of the skipped rows. -/
def load_names_from_csv (rows : List CsvRow) (nameCol firstCol lastCol : String) :
    List String × List Nat :=
  loadCsvGo nameCol firstCol lastCol 2 rows

/-- Notice text built on lines 184 to 188 when rows were skipped. -/
def skipNotice (skipped : List Nat) : String :=
  "Skipped " ++ toString skipped.length ++ " empty row(s) in CSV: "
    ++ String.intercalate ", " ((skipped.take 10).map toString)
    ++ (if skipped.length > 10 then " ..." else "")

/-- Arguments of build_name_list that matter to it; file inputs are modeled
as their parsed contents. -/
structure BuildArgs where
  name : List String
  inputTxt : Option (List String)
  inputCsv : Option (List CsvRow)
  nameColumn : String
  firstNameColumn : String
  lastNameColumn : String
  noDedupe : Bool

/-- build_name_list, lines 168 to 193. -/
def build_name_list (args : BuildArgs) : List String × List String :=
  let explicitNames := (args.name.map pyStrip).filter (fun n => decide (n ≠ ""))
  let txtNames := match args.inputTxt with
    | some lines => load_names_from_txt lines
    | none => []
  let fromCsv := match args.inputCsv with
    | some rows =>
      let loaded := load_names_from_csv rows args.nameColumn args.firstNameColumn
        args.lastNameColumn
      (loaded.1, if loaded.2 ≠ [] then [skipNotice loaded.2] else [])
    | none => ([], [])
  let names := explicitNames ++ txtNames ++ fromCsv.1
  (dedupPhase args.noDedupe names, fromCsv.2)

/-- Serialization of the entity list in main, lines 238 to 240: title and
parenthesized URL when the title is nonempty, else the bare URL, joined by
the pipe separator. -/
def serializeEntities (entities : List (String × String)) : String :=
  String.intercalate " | " (entities.map (fun e =>
    if e.1 ≠ "" then e.1 ++ " (" ++ e.2 ++ ")" else e.2))

/-- Modelled from the spec: every entity serialized as title and
parenthesized URL, with no special case for an empty title. Specification
side of the writer claim. -/
def specSerializeEntities (entities : List (String × String)) : String :=
  String.intercalate " | " (entities.map (fun e => e.1 ++ " (" ++ e.2 ++ ")"))

/-- One row of the report, mirroring the six field tuples of main. -/
structure ResultRow where
  query_name : String
  status : String
  match_count : Nat
  search_url : String
  entity_results : String
  error : String
deriving DecidableEq

/-- Cells of one written row, in the column order of lines 201 to 210. -/
def rowCells (r : ResultRow) : List String :=
  [r.query_name, r.status, toString r.match_count, r.search_url,
   r.entity_results, r.error]

/-- Header written on lines 201 to 210. -/
def HEADER_ROW : List String :=
  ["query_name", "status", "match_count", "search_url", "entity_results", "error"]

/-- write_results, lines 196 to 211: the emitted report as rows of cells,
header first, then one row of cells per result in order. -/
def write_results (rows : List ResultRow) : List (List String) :=
  HEADER_ROW :: rows.map rowCells

/-- Outcome of fetch_search_html for one query: either the page body together
with the document order anchor list its markup yields, or the text of the
raised exception. The URL returned by a successful fetch is always the one
built from the name on lines 133 to 134. -/
inductive FetchOutcome where
  | success (page : String) (anchors : List Anchor)
  | failure (msg : String)

/-- Diagnostic of the unknown branch, line 252. -/
def UNKNOWN_NOTE : String := "Search page returned without parseable entity links."

/-- Body of the per query loop of main, lines 230 to 258. -/
def processName (name : String) (fetch : FetchOutcome) (maxLinks : Int) : ResultRow :=
  match fetch with
  | .failure msg =>
    { query_name := name, status := "error", match_count := 0,
      search_url := buildSearchUrl name, entity_results := "", error := msg }
  | .success page anchors =>
    if containsSub NO_MATCH_MARKER.data page.data then
      { query_name := name, status := "no_match", match_count := 0,
        search_url := buildSearchUrl name, entity_results := "", error := "" }
    else
      let entities := extract_entities anchors maxLinks
      if entities ≠ [] then
        { query_name := name, status := "match", match_count := entities.length,
          search_url := buildSearchUrl name,
          entity_results := serializeEntities entities, error := "" }
      else
        { query_name := name, status := "unknown", match_count := 0,
          search_url := buildSearchUrl name, entity_results := "",
          error := UNKNOWN_NOTE }

/-- Accumulation loop of main, lines 228 to 261, indexed by query position;
the inter request sleep has no effect on the rows. -/
def runBatchGo (fetch : Nat → FetchOutcome) (maxLinks : Int) (i : Nat) :
    List String → List ResultRow
  | [] => []
  | n :: ns => processName n (fetch i) maxLinks :: runBatchGo fetch maxLinks (i + 1) ns

/-- The result rows of main for a name list and a fetch oracle. -/
def runBatch (names : List String) (fetch : Nat → FetchOutcome) (maxLinks : Int) :
    List ResultRow :=
  runBatchGo fetch maxLinks 0 names

/-- Truncation of main, lines 225 to 226. -/
def applyLimit (limit : Int) (names : List String) : List String :=
  if limit > 0 then names.take limit.toNat else names

/-- main, lines 214 to 276, after build_name_list: the exit code and the
written report, none when no file is written. -/
def mainModel (names : List String) (limit : Int) (fetch : Nat → FetchOutcome)
    (maxLinks : Int) : Nat × Option (List (List String)) :=
  if names = [] then (2, none)
  else
    (0, some (write_results (runBatch (applyLimit limit names) fetch maxLinks)))

/-- Entries the extraction loop can still emit at a given current count: one
more when the append of the next entity reaches the cap, otherwise the gap up
to the cap. -/
def capLeft (maxLinks : Int) (count : Nat) : Nat :=
  if (count : Int) + 1 ≥ maxLinks then 1 else (maxLinks - count).toNat

theorem extractGo_eq_take (maxLinks : Int) :
    ∀ (anchors : List Anchor) (seen : List (String × String)) (count : Nat),
    extractGo maxLinks seen count anchors =
      (dedupGo seen anchors).take (capLeft maxLinks count) := by
  intro anchors
  induction anchors with
  | nil => intro seen count; simp [extractGo, dedupGo]
  | cons a rest ih =>
    intro seen count
    by_cases hmem : anchorKey a ∈ seen
    · simp [extractGo, dedupGo, hmem, ih]
    · by_cases hcap : (count : Int) + 1 ≥ maxLinks
      · have h1 : capLeft maxLinks count = 1 := by simp [capLeft, hcap]
        simp [extractGo, dedupGo, hmem, hcap, h1]
      · have h1 : capLeft maxLinks count = capLeft maxLinks (count + 1) + 1 := by
          simp only [capLeft]
          split <;> split <;> omega
        simp [extractGo, dedupGo, hmem, hcap, ih, h1]

theorem extract_eq_take (anchors : List Anchor) (maxLinks : Int) :
    extract_entities anchors maxLinks =
      (dedupAnchors anchors).take (capLeft maxLinks 0) :=
  extractGo_eq_take maxLinks anchors [] 0

/-- C2 counterexample: with the cap configured to 0 and one anchor in the
markup, extract_entities returns one entry, so its length exceeds the cap. -/
theorem C2_counterexample :
    extract_entities [("/entities/a", "T")] 0 =
      [("T", "https://www.opensanctions.org/entities/a")] ∧
    ¬ (((extract_entities [("/entities/a", "T")] 0).length : Int) ≤ 0) := by
  decide

/-- C2 amended: for a cap of at least 1, extract_entities is the dedup of the
anchors in document order truncated to the cap, so its length never exceeds
the cap and equals the cap exactly when the markup holds more distinct
anchors than the cap; a cap of 0 or below still emits the first distinct
entity because the break check runs only after an append. -/
theorem C2_extract_cap (anchors : List Anchor) (maxLinks : Int) :
    (1 ≤ maxLinks →
      extract_entities anchors maxLinks = (dedupAnchors anchors).take maxLinks.toNat ∧
      ((extract_entities anchors maxLinks).length : Int) ≤ maxLinks ∧
      (maxLinks < ((dedupAnchors anchors).length : Int) →
        ((extract_entities anchors maxLinks).length : Int) = maxLinks)) ∧
    (maxLinks ≤ 0 →
      extract_entities anchors maxLinks = (dedupAnchors anchors).take 1) := by
  constructor
  · intro h1
    have hcap : capLeft maxLinks 0 = maxLinks.toNat := by
      simp only [capLeft]; split <;> omega
    have heq : extract_entities anchors maxLinks =
        (dedupAnchors anchors).take maxLinks.toNat := by
      rw [extract_eq_take, hcap]
    refine ⟨heq, ?_, ?_⟩
    · rw [heq]; simp [List.length_take]; omega
    · intro hlt; rw [heq]; simp [List.length_take]; omega
  · intro h0
    have hcap : capLeft maxLinks 0 = 1 := by
      simp only [capLeft]; split <;> omega
    rw [extract_eq_take, hcap]

theorem C2_extract_cap_witness :
    extract_entities
        [("/entities/a", "A"), ("/entities/b", "B"), ("/entities/c", "C")] 2 =
      (dedupAnchors
        [("/entities/a", "A"), ("/entities/b", "B"), ("/entities/c", "C")]).take 2 ∧
    ((extract_entities
        [("/entities/a", "A"), ("/entities/b", "B"), ("/entities/c", "C")] 2).length
      : Int) = 2 := by
  have h := (C2_extract_cap
    [("/entities/a", "A"), ("/entities/b", "B"), ("/entities/c", "C")] 2).1
    (by decide)
  exact ⟨h.1, h.2.2 (by decide)⟩

theorem dedupGo_drop_dup (b : Anchor) :
    ∀ (l₁ : List Anchor) (seen : List (String × String)) (l₂ : List Anchor),
    (anchorKey b ∈ seen ∨ ∃ a ∈ l₁, anchorKey a = anchorKey b) →
    dedupGo seen (l₁ ++ b :: l₂) = dedupGo seen (l₁ ++ l₂) := by
  intro l₁
  induction l₁ with
  | nil =>
    intro seen l₂ h
    have hb : anchorKey b ∈ seen := by
      rcases h with h | ⟨a, ha, _⟩
      · exact h
      · simp at ha
    simp [dedupGo, hb]
  | cons a l₁ ih =>
    intro seen l₂ h
    by_cases hmem : anchorKey a ∈ seen
    · have h2 : anchorKey b ∈ seen ∨ ∃ c ∈ l₁, anchorKey c = anchorKey b := by
        rcases h with h | ⟨c, hc, hck⟩
        · exact Or.inl h
        · rcases List.mem_cons.mp hc with rfl | hc2
          · exact Or.inl (hck ▸ hmem)
          · exact Or.inr ⟨c, hc2, hck⟩
      simp only [List.cons_append, dedupGo, if_pos hmem]
      exact ih seen l₂ h2
    · have h2 : anchorKey b ∈ anchorKey a :: seen ∨
          ∃ c ∈ l₁, anchorKey c = anchorKey b := by
        rcases h with h | ⟨c, hc, hck⟩
        · exact Or.inl (List.mem_cons_of_mem _ h)
        · rcases List.mem_cons.mp hc with rfl | hc2
          · exact Or.inl (hck ▸ List.mem_cons_self _ _)
          · exact Or.inr ⟨c, hc2, hck⟩
      simp only [List.cons_append, dedupGo, if_neg hmem]
      exact congrArg (List.cons (anchorEntity a)) (ih (anchorKey a :: seen) l₂ h2)

/-- C8: a later anchor whose key, absolute URL with case folded title, repeats
the key of an earlier anchor is dropped, so the extraction is that of the
list without it; two leading anchors sharing the URL but with different case
folded titles are both kept, as the first two entries, whenever the cap
admits two entries. -/
theorem C8_extract_dedup (maxLinks : Int) :
    (∀ (l₁ l₂ : List Anchor) (b : Anchor),
      (∃ a ∈ l₁, anchorKey a = anchorKey b) →
      extract_entities (l₁ ++ b :: l₂) maxLinks =
        extract_entities (l₁ ++ l₂) maxLinks) ∧
    (∀ (r t₁ t₂ : String) (rest : List Anchor),
      pyLower t₁ ≠ pyLower t₂ → 2 ≤ maxLinks →
      (extract_entities ((r, t₁) :: (r, t₂) :: rest) maxLinks).take 2 =
        [(t₁, OS_HOST ++ r), (t₂, OS_HOST ++ r)]) := by
  constructor
  · intro l₁ l₂ b h
    rw [extract_eq_take, extract_eq_take]
    unfold dedupAnchors
    rw [dedupGo_drop_dup b l₁ [] l₂ (Or.inr h)]
  · intro r t₁ t₂ rest hne hm
    rw [extract_eq_take]
    have hcap : capLeft maxLinks 0 = maxLinks.toNat := by
      simp only [capLeft]; split <;> omega
    rw [hcap, List.take_take]
    have hmin : min 2 maxLinks.toNat = 2 := by omega
    rw [hmin]
    have hkeq : anchorKey (r, t₂) ≠ anchorKey (r, t₁) := by
      intro he
      exact hne (congrArg Prod.snd he).symm
    simp [dedupAnchors, dedupGo, hkeq, anchorEntity, List.take]

theorem C8_extract_dedup_witness :
    extract_entities [("/entities/a", "T"), ("/entities/a", "t")] 3 =
      extract_entities [("/entities/a", "T")] 3 ∧
    (extract_entities [("/entities/a", "A"), ("/entities/a", "B")] 3).take 2 =
      [("A", OS_HOST ++ "/entities/a"), ("B", OS_HOST ++ "/entities/a")] :=
  ⟨(C8_extract_dedup 3).1 [("/entities/a", "T")] [] ("/entities/a", "t") (by decide),
   (C8_extract_dedup 3).2 "/entities/a" "A" "B" [] (by decide) (by decide)⟩

theorem upoGo_eq_firstOccurrences :
    ∀ (l : List String) (seen : List String),
    upoGo seen l = firstOccurrences (l.filter fun v => decide (nameKey v ∉ seen)) := by
  intro l
  induction l with
  | nil => intro seen; simp [upoGo, firstOccurrences]
  | cons v vs ih =>
    intro seen
    by_cases hmem : nameKey v ∈ seen
    · have h1 : upoGo seen (v :: vs) = upoGo seen vs := by simp [upoGo, hmem]
      have h2 : (v :: vs).filter (fun w => decide (nameKey w ∉ seen)) =
          vs.filter (fun w => decide (nameKey w ∉ seen)) := by
        simp [List.filter_cons, hmem]
      rw [h1, h2, ih]
    · have h1 : upoGo seen (v :: vs) = v :: upoGo (nameKey v :: seen) vs := by
        simp [upoGo, hmem]
      have h2 : (v :: vs).filter (fun w => decide (nameKey w ∉ seen)) =
          v :: vs.filter (fun w => decide (nameKey w ∉ seen)) := by
        simp [List.filter_cons, hmem]
      rw [h1, h2, ih, firstOccurrences]
      congr 1
      rw [List.filter_filter]
      congr 1
      apply List.filter_congr
      intro w _
      by_cases e1 : nameKey w = nameKey v <;> by_cases e2 : nameKey w ∈ seen <;>
        simp [e1, e2]

theorem upoGo_sublist : ∀ (l : List String) (seen : List String),
    List.Sublist (upoGo seen l) l := by
  intro l
  induction l with
  | nil => intro seen; simp [upoGo]
  | cons v vs ih =>
    intro seen
    by_cases hmem : nameKey v ∈ seen
    · have h1 : upoGo seen (v :: vs) = upoGo seen vs := by simp [upoGo, hmem]
      rw [h1]
      exact (ih seen).cons v
    · have h1 : upoGo seen (v :: vs) = v :: upoGo (nameKey v :: seen) vs := by
        simp [upoGo, hmem]
      rw [h1]
      exact (ih (nameKey v :: seen)).cons₂ v

/-- C5: with the no dedupe flag off, the dedup phase returns exactly the
subsequence of first occurrences keyed by stripped, lower cased value, each
key retaining its first seen original string; with the flag on, it is the
identity; the deduplicated list is a sublist of the input, so the original
order is preserved. -/
theorem C5_dedup_phase (names : List String) :
    dedupPhase false names = firstOccurrences names ∧
    dedupPhase true names = names ∧
    List.Sublist (unique_preserve_order names) names := by
  refine ⟨?_, rfl, upoGo_sublist names []⟩
  show unique_preserve_order names = firstOccurrences names
  unfold unique_preserve_order
  rw [upoGo_eq_firstOccurrences]
  congr 1
  simp

theorem runBatchGo_length (fetch : Nat → FetchOutcome) (maxLinks : Int) :
    ∀ (ns : List String) (i : Nat), (runBatchGo fetch maxLinks i ns).length = ns.length := by
  intro ns
  induction ns with
  | nil => intro i; simp [runBatchGo]
  | cons n ns ih => intro i; simp [runBatchGo, ih]

theorem runBatchGo_getElem? (fetch : Nat → FetchOutcome) (maxLinks : Int) :
    ∀ (ns : List String) (j i : Nat),
    (runBatchGo fetch maxLinks j ns)[i]? =
      (ns[i]?).map (fun n => processName n (fetch (j + i)) maxLinks) := by
  intro ns
  induction ns with
  | nil => intro j i; simp [runBatchGo]
  | cons n ns ih =>
    intro j i
    cases i with
    | zero => simp [runBatchGo]
    | succ k =>
      simp only [runBatchGo, List.getElem?_cons_succ, ih (j + 1) k]
      have : j + 1 + k = j + (k + 1) := by omega
      rw [this]

/-- C3: the batch loop yields exactly one result row per name, in the order
of the name list, each row being the processing of that name with the fetch
outcome at its position; a fetch failure becomes an error row with the
exception text, so no row is skipped and the batch is never aborted. -/
theorem C3_one_row_per_name (names : List String) (fetch : Nat → FetchOutcome)
    (maxLinks : Int) :
    (runBatch names fetch maxLinks).length = names.length ∧
    (∀ i : Nat, (runBatch names fetch maxLinks)[i]? =
      (names[i]?).map (fun n => processName n (fetch i) maxLinks)) ∧
    (∀ (n msg : String), processName n (.failure msg) maxLinks =
      { query_name := n, status := "error", match_count := 0,
        search_url := buildSearchUrl n, entity_results := "", error := msg }) := by
  refine ⟨runBatchGo_length fetch maxLinks names 0, ?_, fun n msg => rfl⟩
  intro i
  have h := runBatchGo_getElem? fetch maxLinks names 0 i
  simpa using h

/-- C4: when the page body holds the no results marker anywhere, the
classification is the no match row with count 0, empty entity cell and empty
error, whatever anchors the page also holds: the extractor is not consulted. -/
theorem C4_marker_precedence (name page : String) (anchors : List Anchor)
    (maxLinks : Int)
    (h : containsSub NO_MATCH_MARKER.data page.data = true) :
    processName name (.success page anchors) maxLinks =
      { query_name := name, status := "no_match", match_count := 0,
        search_url := buildSearchUrl name, entity_results := "", error := "" } := by
  simp [processName, h]

theorem C4_marker_precedence_witness :
    processName "Jane Doe"
      (.success "<p>No matching entities were found.</p>" [("/entities/x", "T")]) 3 =
      { query_name := "Jane Doe", status := "no_match", match_count := 0,
        search_url := buildSearchUrl "Jane Doe", entity_results := "", error := "" } :=
  C4_marker_precedence "Jane Doe" "<p>No matching entities were found.</p>"
    [("/entities/x", "T")] 3 (by decide)

/-- C1 counterexample: on a page without the marker and without anchors the
row has status unknown yet a nonempty error message, so the error field is
not empty exactly on error rows. -/
theorem C1_counterexample :
    (processName "n" (FetchOutcome.success "" []) 3).status = "unknown" ∧
    ¬ (((processName "n" (FetchOutcome.success "" []) 3).error ≠ "") ↔
        ((processName "n" (FetchOutcome.success "" []) 3).status = "error")) := by
  decide

/-- C1 amended: rows with status match or no_match carry an empty error
message; a row with status unknown carries the fixed diagnostic note; a row
produced by a failed fetch carries the exception text as its error message. -/
theorem C1_error_field (name : String) (fetch : FetchOutcome) (maxLinks : Int) :
    ((processName name fetch maxLinks).status = "match" ∨
      (processName name fetch maxLinks).status = "no_match" →
      (processName name fetch maxLinks).error = "") ∧
    ((processName name fetch maxLinks).status = "unknown" →
      (processName name fetch maxLinks).error = UNKNOWN_NOTE) ∧
    (∀ msg : String, fetch = FetchOutcome.failure msg →
      (processName name fetch maxLinks).error = msg) := by
  cases fetch with
  | failure msg =>
    simp [processName]
  | success page anchors =>
    by_cases hm : containsSub NO_MATCH_MARKER.data page.data = true
    · simp [processName, hm]
    · by_cases he : extract_entities anchors maxLinks = []
      · simp [processName, hm, he]
      · simp [processName, hm, he]

theorem C1_error_field_witness :
    (processName "n" (FetchOutcome.failure "boom") 3).error = "boom" :=
  (C1_error_field "n" (FetchOutcome.failure "boom") 3).2.2 "boom" rfl

/-- C6: with no resolved names, main exits with code 2 and writes no report;
with at least one name, it writes the report for the limited name list and
exits with code 0, whatever the fetch outcomes are, so a batch made only of
error rows still exits successfully. -/
theorem C6_exit_codes (names : List String) (limit : Int)
    (fetch : Nat → FetchOutcome) (maxLinks : Int) :
    (names = [] → mainModel names limit fetch maxLinks = (2, none)) ∧
    (names ≠ [] →
      (mainModel names limit fetch maxLinks).1 = 0 ∧
      (mainModel names limit fetch maxLinks).2 =
        some (write_results (runBatch (applyLimit limit names) fetch maxLinks))) := by
  constructor
  · intro h
    subst h
    simp [mainModel]
  · intro h
    simp [mainModel, h]

theorem C6_exit_codes_witness :
    mainModel [] 0 (fun _ => FetchOutcome.failure "boom") 3 = (2, none) ∧
    (mainModel ["a"] 0 (fun _ => FetchOutcome.failure "boom") 3).1 = 0 ∧
    (mainModel ["a"] 0 (fun _ => FetchOutcome.failure "boom") 3).2 =
      some (write_results
        (runBatch (applyLimit 0 ["a"]) (fun _ => FetchOutcome.failure "boom") 3)) := by
  refine ⟨(C6_exit_codes [] 0 (fun _ => FetchOutcome.failure "boom") 3).1 rfl, ?_, ?_⟩
  · exact ((C6_exit_codes ["a"] 0 (fun _ => FetchOutcome.failure "boom") 3).2
      (by decide)).1
  · exact ((C6_exit_codes ["a"] 0 (fun _ => FetchOutcome.failure "boom") 3).2
      (by decide)).2

/-- C7 counterexample: an anchor with an empty title is serialized as the
bare URL, not as a title with parenthesized URL, so the entity cell of a
reachable match row differs from the serialization the claim states. -/
theorem C7_counterexample :
    (processName "n" (FetchOutcome.success "x" [("/entities/a", "")]) 3).entity_results =
      "https://www.opensanctions.org/entities/a" ∧
    specSerializeEntities (extract_entities [("/entities/a", "")] 3) =
      " (https://www.opensanctions.org/entities/a)" ∧
    (processName "n" (FetchOutcome.success "x" [("/entities/a", "")]) 3).entity_results ≠
      specSerializeEntities (extract_entities [("/entities/a", "")] 3) := by
  decide

/-- C7 amended: the writer emits the exact header row then one row of cells
per result in report order; the entity cell entries are joined by the pipe
separator and an entry is title with parenthesized URL whenever the title is
nonempty, while an empty title gives the bare URL; the cell is empty when
there are no entities. -/
theorem C7_writer_output (rows : List ResultRow) (entities : List (String × String)) :
    (write_results rows).length = rows.length + 1 ∧
    (write_results rows)[0]? =
      some ["query_name", "status", "match_count", "search_url",
        "entity_results", "error"] ∧
    (∀ i : Nat, (write_results rows)[i + 1]? = (rows[i]?).map rowCells) ∧
    ((∀ e ∈ entities, e.1 ≠ "") →
      serializeEntities entities = specSerializeEntities entities) ∧
    serializeEntities [] = "" := by
  refine ⟨by simp [write_results], by simp [write_results, HEADER_ROW], ?_, ?_,
    by decide⟩
  · intro i
    simp [write_results]
  · intro h
    unfold serializeEntities specSerializeEntities
    congr 1
    apply List.map_congr_left
    intro e he
    simp [h e he]

theorem C7_writer_output_witness :
    serializeEntities [("T", "u")] = specSerializeEntities [("T", "u")] :=
  (C7_writer_output [] [("T", "u")]).2.2.2.1 (by decide)

theorem loadCsvGo_eq (nameCol firstCol lastCol : String) :
    ∀ (rows : List CsvRow) (i : Nat),
    loadCsvGo nameCol firstCol lastCol i rows =
      ((rows.map (resolveName nameCol firstCol lastCol)).filter
          (fun n => decide (n ≠ "")),
        (List.enumFrom i (rows.map (resolveName nameCol firstCol lastCol))).filterMap
          (fun p => if p.2 = "" then some p.1 else none)) := by
  intro rows
  induction rows with
  | nil => intro i; simp [loadCsvGo]
  | cons row rest ih =>
    intro i
    by_cases h : resolveName nameCol firstCol lastCol row = ""
    · simp [loadCsvGo, ih (i + 1), h, List.filter_cons, List.enumFrom,
        List.filterMap_cons]
    · simp [loadCsvGo, ih (i + 1), h, List.filter_cons, List.enumFrom,
        List.filterMap_cons]

/-- C9: the loader keeps, in order, exactly the rows whose resolved name is
nonblank; every blank row is excluded and its 1 based row number, counted
with the header as row 1 so that the first data row is row 2, is recorded in
the skipped list; build_name_list turns a nonempty skipped list into a
notice and still returns the loaded names, so blank rows never abort the
load. -/
theorem C9_blank_rows (rows : List CsvRow) (nameCol firstCol lastCol : String)
    (argNames : List String) (txt : Option (List String)) (noDedupe : Bool) :
    (load_names_from_csv rows nameCol firstCol lastCol).1 =
      (rows.map (resolveName nameCol firstCol lastCol)).filter
        (fun n => decide (n ≠ "")) ∧
    (load_names_from_csv rows nameCol firstCol lastCol).2 =
      (List.enumFrom 2 (rows.map (resolveName nameCol firstCol lastCol))).filterMap
        (fun p => if p.2 = "" then some p.1 else none) ∧
    (build_name_list
        ⟨argNames, txt, some rows, nameCol, firstCol, lastCol, noDedupe⟩).2 =
      (if (load_names_from_csv rows nameCol firstCol lastCol).2 ≠ []
        then [skipNotice (load_names_from_csv rows nameCol firstCol lastCol).2]
        else []) := by
  have h := loadCsvGo_eq nameCol firstCol lastCol rows 2
  exact ⟨by rw [load_names_from_csv, h], by rw [load_names_from_csv, h], rfl⟩

/-- C10: a limit of 0 or below leaves the name list unchanged, while a
positive limit keeps exactly the first limit names, so the resulting length
is the minimum of the limit and the list length. -/
theorem C10_limit_truncation (names : List String) (limit : Int) :
    (limit ≤ 0 → applyLimit limit names = names) ∧
    (0 < limit →
      applyLimit limit names = names.take limit.toNat ∧
      (applyLimit limit names).length = min limit.toNat names.length) := by
  constructor
  · intro h
    rw [applyLimit, if_neg (by omega)]
  · intro h
    rw [applyLimit, if_pos (by omega)]
    exact ⟨rfl, by simp [List.length_take]⟩

theorem C10_limit_truncation_witness :
    applyLimit (-1) ["a"] = ["a"] ∧ applyLimit 2 ["a", "b", "c"] = ["a", "b"] := by
  constructor
  · exact (C10_limit_truncation ["a"] (-1)).1 (by decide)
  · exact (((C10_limit_truncation ["a", "b", "c"] 2).2 (by decide)).1).trans (by decide)
